import Mathlib

/-!
Verification development for the cannonsmash-typescript repository.

The repository itself contains only external browser-driving verification
scripts (Playwright); the simulation engine they exercise (PhysicsWorld,
AnimationStateMachine, ServeController, AIOpponent, RallyOrchestrator) is
not present under src/.  Engine components are therefore modelled from the
specification, as marked on each definition; the decision logic of the
verification scripts themselves (verify_fullscreen_click.py,
verify_robust_serve.py) is embedded directly from their Python source.
-/

/-- Court side of a player or of a ball contact point. -/
inductive Side where
  | near
  | far
deriving DecidableEq

/-- The opponent of a side. -/
def Side.opponent : Side → Side
  | .near => .far
  | .far => .near

/-- Modelled from the spec: the closed set of per-player animation states
(§3 Data Model, AnimationState). -/
inductive AnimationState where
  | Idle
  | Toss
  | Backswing
  | ForwardSwing
  | Recovery
deriving DecidableEq

/-- Modelled from the spec: the legal-transition adjacency table of §4.2,
the cycle Idle → Toss → Backswing → ForwardSwing → Recovery → Idle. -/
def AnimationState.adjacent : AnimationState → AnimationState → Bool
  | .Idle, .Toss => true
  | .Toss, .Backswing => true
  | .Backswing, .ForwardSwing => true
  | .ForwardSwing, .Recovery => true
  | .Recovery, .Idle => true
  | _, _ => false

/-- Modelled from the spec: error taxonomy entry for an animation request
outside the adjacency table (§7). -/
inductive TransitionError where
  | IllegalTransition
deriving DecidableEq

/-- Modelled from the spec: per-player animation state machine with
state-internal timer and the fixed durations of the auto-advancing
states (§4.2). -/
structure AnimationStateMachine where
  state : AnimationState
  timerMs : ℚ
  forwardSwingMs : ℚ
  recoveryMs : ℚ
deriving DecidableEq

/-- Outcome of a transition request: the machine afterwards, and either the
new state or the failure condition. -/
structure TransitionOutcome where
  machine : AnimationStateMachine
  result : Except TransitionError AnimationState

/-- Modelled from the spec: requestTransition(target) succeeds and returns
the new state only if target is adjacent to the current state, or if
target = Idle (reset/interrupt is always legal); otherwise it fails with
IllegalTransition and the state is left unchanged (§4.2). -/
def AnimationStateMachine.requestTransition (m : AnimationStateMachine)
    (target : AnimationState) : TransitionOutcome :=
  if m.state.adjacent target || target == .Idle then
    ⟨{ m with state := target, timerMs := 0 }, .ok target⟩
  else
    ⟨m, .error .IllegalTransition⟩

/-- Modelled from the spec: tick(dt) advances state-internal timers and
auto-advances ForwardSwing → Recovery → Idle once their fixed durations
elapse (§4.2). -/
def AnimationStateMachine.tick (m : AnimationStateMachine) (dt : ℚ) :
    AnimationStateMachine :=
  let t := m.timerMs + dt
  match m.state with
  | .ForwardSwing =>
      if m.forwardSwingMs ≤ t then { m with state := .Recovery, timerMs := 0 }
      else { m with timerMs := t }
  | .Recovery =>
      if m.recoveryMs ≤ t then { m with state := .Idle, timerMs := 0 }
      else { m with timerMs := t }
  | _ => { m with timerMs := t }

/-- The spec's adjacency relation stated as a proposition, directly from the
spec's listing of the cycle (used to check the executable table against the
spec's words). -/
def SpecAdjacent (s t : AnimationState) : Prop :=
  (s = .Idle ∧ t = .Toss) ∨ (s = .Toss ∧ t = .Backswing) ∨
  (s = .Backswing ∧ t = .ForwardSwing) ∨ (s = .ForwardSwing ∧ t = .Recovery) ∨
  (s = .Recovery ∧ t = .Idle)

instance (s t : AnimationState) : Decidable (SpecAdjacent s t) := by
  unfold SpecAdjacent
  infer_instance

/-- 3D vector over the reals, for the impulse-clamping model. -/
structure Vec3 where
  x : ℝ
  y : ℝ
  z : ℝ

/-- Euclidean magnitude of a vector. -/
noncomputable def Vec3.mag (v : Vec3) : ℝ :=
  Real.sqrt (v.x ^ 2 + v.y ^ 2 + v.z ^ 2)

/-- Scalar multiple of a vector. -/
def Vec3.smul (c : ℝ) (v : Vec3) : Vec3 :=
  ⟨c * v.x, c * v.y, c * v.z⟩

/-- Modelled from the spec: PhysicsWorld's ball velocity state together with
the configured maximum velocity magnitude (§3 Ball, §4.1). -/
structure PhysicsWorld where
  maxVelocity : ℝ
  ballPos : Vec3
  ballVel : Vec3

/-- Modelled from the spec: applyImpulse(velocity) sets ball velocity
directly, then clamps magnitude to the configured maximum before returning
the post-clamp velocity (§4.1). -/
noncomputable def PhysicsWorld.applyImpulse (w : PhysicsWorld) (I : Vec3) :
    Vec3 × PhysicsWorld :=
  let clamped :=
    if I.mag ≤ w.maxVelocity then I else Vec3.smul (w.maxVelocity / I.mag) I
  (clamped, { w with ballVel := clamped })

/-- 3D vector over the rationals, for the discrete simulation models. -/
structure Vec3Q where
  x : ℚ
  y : ℚ
  z : ℚ
deriving DecidableEq

/-- Modelled from the spec: a Player has a side, position, facing and its
own animation state machine (§3 Player). -/
structure Player where
  side : Side
  pos : Vec3Q
  facing : ℚ
  machine : AnimationStateMachine
deriving DecidableEq

/-- Modelled from the spec: the debug/introspection hook allowing direct
placement of a player for deterministic scenario setup; it only relocates
the entity and must not bypass AnimationStateMachine invariants (§6). -/
def Player.debug_setPosition (p : Player) (x y z : ℚ) : Player :=
  { p with pos := ⟨x, y, z⟩ }

/-- Modelled from the spec: outcome of a serve commit (§4.3, §7). -/
inductive ServeOutcome where
  | Launched
  | ServeMissed
deriving DecidableEq

/-- Modelled from the spec: the serve protocol state for the serving
player — its animation machine, the pending target zone (row/column index
of the nine-zone grid) and toss height, the bounded commit window and the
time elapsed since Backswing was armed, plus the fault count (§3
ServeIntent, §4.3). -/
structure ServeController where
  machine : AnimationStateMachine
  targetRow : ℕ
  targetCol : ℕ
  tossHeight : ℚ
  commitWindowMs : ℚ
  sinceArmedMs : ℚ
  faultCount : ℕ
  servePending : Bool
deriving DecidableEq

/-- Modelled from the spec: the launch velocity aimed at the selected
target zone, factoring current toss height and a power/arc profile (§4.3);
the row/column index selects the landing cell. -/
def launchVelocity (row col : ℕ) (tossHeight : ℚ) : Vec3Q :=
  ⟨(col : ℚ) - 1, 1 + tossHeight / 4, -(2 + (row : ℚ))⟩

/-- Result of commitSwing(): the outcome, the controller afterwards, and
the impulse passed on to PhysicsWorld.applyImpulse, if any. -/
structure CommitResult where
  outcome : ServeOutcome
  ctrl : ServeController
  impulse : Option Vec3Q
deriving DecidableEq

/-- Modelled from the spec: restarting the rally after a missed serve —
animation reset to Idle, the pending serve discarded, and the fault count
incremented (§4.3, §5 cancellation). -/
def ServeController.restartRally (s : ServeController) : ServeController :=
  { s with
    machine := { s.machine with state := .Idle, timerMs := 0 },
    sinceArmedMs := 0,
    servePending := false,
    faultCount := s.faultCount + 1 }

/-- Modelled from the spec: commitSwing() is accepted only while Backswing
is active and within the bounded commit window; then it transitions the
machine to ForwardSwing and hands the launch velocity to
PhysicsWorld.applyImpulse. Otherwise it fails with ServeMissed, applies no
impulse, and the rally restarts with a fault count increment (§4.3). -/
def ServeController.commitSwing (s : ServeController) : CommitResult :=
  if s.machine.state = .Backswing ∧ s.sinceArmedMs ≤ s.commitWindowMs then
    ⟨.Launched,
      { s with
        machine := (s.machine.requestTransition .ForwardSwing).machine,
        servePending := false },
      some (launchVelocity s.targetRow s.targetCol s.tossHeight)⟩
  else
    ⟨.ServeMissed, s.restartRally, none⟩

/-- Modelled from the spec: terminal per-rally outcomes reported by the
orchestrator (§4.5). -/
inductive RallyOutcome where
  | PointWon (winner : Side)
  | Fault (loser : Side)
deriving DecidableEq

/-- Modelled from the spec: the rally events the orchestrator resolves per
tick — an uneventful tick, a bounce on a side, a player's racket touch, and
the immediately terminal net/out events carrying the side at fault (§4.1,
§4.5). -/
inductive RallyEvent where
  | Tick
  | Bounce (s : Side)
  | Touch (s : Side)
  | Net (atFault : Side)
  | Out (atFault : Side)
deriving DecidableEq

/-- Modelled from the spec: the orchestrator's scoring memory — the side of
the last bounce not yet answered by an opposite-side touch, and the rally
outcome once decided. -/
structure RallyScore where
  lastBounce : Option Side
  outcome : Option RallyOutcome
deriving DecidableEq

/-- Modelled from the spec: resolving one rally event — a second bounce on
the same side before the opponent touches the ball ends the rally as a
point for the opponent of that side; net/out events end it against the
side at fault; once an outcome is decided, later events change nothing
(§4.1, §4.5). -/
def RallyScore.resolveEvent (st : RallyScore) (e : RallyEvent) : RallyScore :=
  match st.outcome with
  | some _ => st
  | none =>
    match e with
    | .Tick => st
    | .Bounce s =>
        if st.lastBounce = some s then
          { st with outcome := some (.PointWon s.opponent) }
        else { st with lastBounce := some s }
    | .Touch t =>
        match st.lastBounce with
        | some s => if t = s then st else { st with lastBounce := none }
        | none => st
    | .Net f => { st with outcome := some (.PointWon f.opponent) }
    | .Out f => { st with outcome := some (.PointWon f.opponent) }

/-- Run a rally's scoring from the initial score over a list of events. -/
def runRally (evs : List RallyEvent) : RallyScore :=
  evs.foldl RallyScore.resolveEvent ⟨none, none⟩

/-- Modelled from the spec: fixed court geometry — bounds, net height, and
the restitution and friction factors used by bounce resolution (§3 Court,
§4.1). -/
structure CourtQ where
  halfWidth : ℚ
  halfLength : ℚ
  netHeight : ℚ
  restitution : ℚ
  friction : ℚ
deriving DecidableEq

/-- Modelled from the spec: the discrete physics world — court, gravity and
drag coefficients, the fixed timestep, and the ball's position and
velocity (§3 Ball, §4.1). -/
structure PhysicsWorldQ where
  court : CourtQ
  gravity : ℚ
  drag : ℚ
  dt : ℚ
  ballPos : Vec3Q
  ballVel : Vec3Q
deriving DecidableEq

/-- Per-tick physics event (§4.1). -/
inductive StepEvent where
  | InFlight
  | Bounced (s : Side)
  | NetHit
  | OutOfBounds
deriving DecidableEq

/-- The side of the court a z coordinate lies on (near is nonnegative z). -/
def sideOfZ (z : ℚ) : Side :=
  if 0 ≤ z then .near else .far

/-- Modelled from the spec: step(dt) advances ball position and velocity
under gravity and drag, resolves net/ground/bounds collisions, and emits
one of InFlight, Bounced(side), NetHit, OutOfBounds; a bounce reflects the
vertical velocity component scaled by restitution and reduces horizontal
speed by the friction factor; crossing the net plane at or below net
height is a net contact (§4.1). -/
def PhysicsWorldQ.step (w : PhysicsWorldQ) : PhysicsWorldQ × StepEvent :=
  let v : Vec3Q :=
    ⟨w.ballVel.x * (1 - w.drag * w.dt),
     (w.ballVel.y - w.gravity * w.dt) * (1 - w.drag * w.dt),
     w.ballVel.z * (1 - w.drag * w.dt)⟩
  let p : Vec3Q :=
    ⟨w.ballPos.x + v.x * w.dt, w.ballPos.y + v.y * w.dt,
     w.ballPos.z + v.z * w.dt⟩
  if (w.ballPos.z * p.z < 0 ∨ p.z = 0) ∧ p.y ≤ w.court.netHeight then
    ({ w with ballPos := p, ballVel := v }, .NetHit)
  else if p.y ≤ 0 then
    if |p.x| ≤ w.court.halfWidth ∧ |p.z| ≤ w.court.halfLength then
      ({ w with
          ballPos := ⟨p.x, 0, p.z⟩,
          ballVel := ⟨v.x * w.court.friction, -v.y * w.court.restitution,
                      v.z * w.court.friction⟩ },
        .Bounced (sideOfZ p.z))
    else ({ w with ballPos := p, ballVel := v }, .OutOfBounds)
  else ({ w with ballPos := p, ballVel := v }, .InFlight)

/-- Translate a physics event into the rally event the orchestrator scores,
charging net/out events to the side that last hit the ball. -/
def stepEventToRallyEvent (lastHitter : Side) : StepEvent → RallyEvent
  | .InFlight => .Tick
  | .Bounced s => .Bounce s
  | .NetHit => .Net lastHitter
  | .OutOfBounds => .Out lastHitter

/-- Modelled from the spec: the fixed-timestep rally orchestrator driving
physics, both players' animation machines and the scoring, with pause and
resume that only stop and restart its own ticking (§4.5). -/
structure RallyOrchestrator where
  world : PhysicsWorldQ
  nearMachine : AnimationStateMachine
  farMachine : AnimationStateMachine
  score : RallyScore
  lastHitter : Side
  paused : Bool
deriving DecidableEq

/-- Modelled from the spec: pause only stops the orchestrator's own
ticking (§4.5). -/
def RallyOrchestrator.pause (o : RallyOrchestrator) : RallyOrchestrator :=
  { o with paused := true }

/-- Modelled from the spec: resume only restarts the orchestrator's own
ticking (§4.5). -/
def RallyOrchestrator.resume (o : RallyOrchestrator) : RallyOrchestrator :=
  { o with paused := false }

/-- Modelled from the spec: one orchestrator tick — when paused, nothing
advances; otherwise physics steps first, the resulting event is scored,
and both animation machines tick (§4.5, §5). -/
def RallyOrchestrator.tick (o : RallyOrchestrator) : RallyOrchestrator :=
  if o.paused then o
  else
    let s := o.world.step
    { o with
      world := s.1,
      nearMachine := o.nearMachine.tick o.world.dt,
      farMachine := o.farMachine.tick o.world.dt,
      score := o.score.resolveEvent (stepEventToRallyEvent o.lastHitter s.2) }

/-- Modelled from the spec: the AI's configuration — its effective contact
height, its position, the radius of its reach envelope, and the swing lead
time in ticks (§3 Player, §4.4). -/
structure AIConfig where
  contactHeight : ℚ
  homeX : ℚ
  homeZ : ℚ
  reachRadius : ℚ
  swingLeadTicks : ℕ
deriving DecidableEq

/-- Modelled from the spec: numerically back-solving the projectile
equation — the ball is stepped forward until it first descends to the AI's
effective contact height on the AI's (far, negative z) side, returning that
predicted crossing point and its tick; a terminal event or fuel exhaustion
means no crossing point exists (§4.4). -/
def predictCrossing (w : PhysicsWorldQ) (cfg : AIConfig) :
    ℕ → Option (Vec3Q × ℕ)
  | 0 => none
  | fuel + 1 =>
      let s := w.step
      match s.2 with
      | .InFlight =>
          if s.1.ballPos.y ≤ cfg.contactHeight ∧ s.1.ballPos.z < 0 then
            some (s.1.ballPos, 1)
          else
            match predictCrossing s.1 cfg fuel with
            | some (p, t) => some (p, t + 1)
            | none => none
      | .Bounced _ =>
          match predictCrossing s.1 cfg fuel with
          | some (p, t) => some (p, t + 1)
          | none => none
      | .NetHit => none
      | .OutOfBounds => none

/-- Modelled from the spec: whether a point lies inside the AI's reach
envelope around its position (§3 Player, §4.4). -/
def AIConfig.inReach (cfg : AIConfig) (p : Vec3Q) : Bool :=
  (p.x - cfg.homeX) ^ 2 + (p.z - cfg.homeZ) ^ 2 ≤ cfg.reachRadius ^ 2

/-- Modelled from the spec: the AI's planned interception — predicted
contact point and tick, the scheduled swing-commit tick, and the chosen
target zone (§3 StrokePlan). -/
structure StrokePlan where
  contact : Vec3Q
  contactTick : ℕ
  commitTick : ℕ
  targetRow : ℕ
  targetCol : ℕ
deriving DecidableEq

/-- The AI's decision for an incoming ball: either a committed stroke plan
or the declaration that the ball is unreachable (§4.4, §7). -/
inductive AIDecision where
  | Unreachable
  | Commit (plan : StrokePlan)
deriving DecidableEq

/-- Modelled from the spec: the zone-choice heuristic is unobservable (§9
open question); modelled as the fixed center cell of the nine-zone grid. -/
def chooseTargetZone : ℕ × ℕ :=
  (1, 1)

/-- Modelled from the spec: produce a StrokePlan by predicting the ball's
crossing point at the AI's effective contact height; if no crossing point
exists or the predicted point lies outside the reach envelope, the AI
declares Unreachable and issues no swing commit (§4.4). -/
def AIOpponent.planStroke (cfg : AIConfig) (w : PhysicsWorldQ) (fuel : ℕ) :
    AIDecision :=
  match predictCrossing w cfg fuel with
  | none => .Unreachable
  | some (p, t) =>
      if cfg.inReach p then
        .Commit ⟨p, t, t - cfg.swingLeadTicks, chooseTargetZone.1,
          chooseTargetZone.2⟩
      else .Unreachable

/-- Modelled from the spec: the orchestrator's resolution of an AI
decision — Unreachable concedes the point to the AI's opponent; a
committed plan ends nothing yet (§4.4, §7). -/
def resolveAIDecision (aiSide : Side) : AIDecision → Option RallyOutcome
  | .Unreachable => some (.PointWon aiSide.opponent)
  | .Commit _ => none

/-- Does the pattern occur at the head of the text?  List-of-characters
model of matching a pattern at a fixed position. -/
def leadMatch : List Char → List Char → Bool
  | [], _ => true
  | _ :: _, [] => false
  | a :: as, b :: bs => a == b && leadMatch as bs

/-- Does the pattern occur anywhere in the text?  List-of-characters model
of Python's substring test (the `in` operator on strings). -/
def subMatch : List Char → List Char → Bool
  | pat, [] => leadMatch pat []
  | pat, b :: bs => leadMatch pat (b :: bs) || subMatch pat bs

/-- Whether the string hay contains pat as a substring. -/
def strContains (hay pat : String) : Bool :=
  subMatch pat.toList hay.toList

/-- Substring containment as a proposition: hay splits around pat. -/
def ContainsSub (hay pat : String) : Prop :=
  ∃ pre post : List Char, hay.toList = pre ++ pat.toList ++ post

/-- Embedded from verify_fullscreen_click.py: the externally visible
effects of run_verification after the captured console logs are checked —
which line was printed, whether AssertionError was raised, and whether the
final screenshot line was reached. -/
structure FullscreenClickOutcome where
  printedSuccess : Bool
  printedFailure : Bool
  raisedAssertion : Bool
  screenshotTaken : Bool
deriving DecidableEq

/-- Embedded from verify_fullscreen_click.py (run_verification): the script
computes toss_log_found as any("Tossing ball" in log for log in
console_logs); when found it prints the SUCCESS line and then takes the
screenshot; otherwise it prints the FAILURE line and the captured logs and
raises AssertionError, never reaching the screenshot line. -/
def run_verification (consoleLogs : List String) : FullscreenClickOutcome :=
  let tossLogFound := consoleLogs.any fun log => strContains log "Tossing ball"
  if tossLogFound then ⟨true, false, false, true⟩
  else ⟨false, true, true, false⟩

/-- Embedded from verify_robust_serve.py: the externally visible actions
the script can perform after its game-object check. -/
inductive ScriptAction where
  | evalDebugSetPosition (x y z : ℚ)
  | dispatchEvent (ev : String)
  | closeBrowser
deriving DecidableEq

/-- Embedded from verify_robust_serve.py: positions_to_test in insertion
order, as (name, z) pairs. -/
def positionsToTest : List (String × ℚ) :=
  [("standard", 157/100), ("close", 14/10), ("far", 2)]

/-- Embedded from verify_robust_serve.py: one iteration of the serve
loop — it evaluates window.game.player1.debug_setPosition(0, 0.77, z), and
if that evaluation raises the iteration is skipped (continue); otherwise
mousedown and mouseup are dispatched on the canvas. -/
def robustServeLoopBody (setPosRaises : ℚ → Bool) (entry : String × ℚ) :
    List ScriptAction :=
  if setPosRaises entry.2 then []
  else
    [.evalDebugSetPosition 0 (77/100) entry.2,
     .dispatchEvent "mousedown",
     .dispatchEvent "mouseup"]

/-- Embedded from verify_robust_serve.py (run): the script evaluates
typeof window.game in the page; when the result is 'undefined' it closes
the browser and returns early, otherwise it runs the position loop and
then closes the browser.  The returned trace lists the visible actions in
order. -/
def runRobustServe (typeofGame : String) (setPosRaises : ℚ → Bool) :
    List ScriptAction :=
  let gameExists := typeofGame ≠ "undefined"
  if gameExists then
    positionsToTest.flatMap (robustServeLoopBody setPosRaises) ++
      [.closeBrowser]
  else [.closeBrowser]

/-- The no-failure environment: no debug_setPosition evaluation raises. -/
def noRaise : ℚ → Bool :=
  fun _ => false

/-- A concrete mid-flight orchestrator state for evaluating the models. -/
def sampleOrchestrator : RallyOrchestrator :=
  ⟨⟨⟨5, 10, 1, 1/2, 9/10⟩, 10, 0, 1/100, ⟨0, 1, 2⟩, ⟨0, 2, -3⟩⟩,
    ⟨.Idle, 0, 300, 200⟩, ⟨.Idle, 0, 300, 200⟩, ⟨none, none⟩, .near, false⟩

/-- A concrete incoming-ball world for evaluating the AI model. -/
def sampleIncomingWorld : PhysicsWorldQ :=
  ⟨⟨5, 10, 1, 1/2, 9/10⟩, 1, 0, 1, ⟨5, 3, -1⟩, ⟨0, 0, 0⟩⟩

/-- A concrete AI configuration for evaluating the AI model. -/
def sampleAIConfig : AIConfig :=
  ⟨2, 0, -3, 1, 0⟩

/-- C2: while a ForwardSwing is currently active, a second
requestTransition(ForwardSwing) is rejected idempotently: the machine is
returned unchanged (still in ForwardSwing, never an undefined or default
pose), and the result is the IllegalTransition failure. -/
theorem requestTransition_forwardSwing_idempotent_reject
    (m : AnimationStateMachine) (h : m.state = .ForwardSwing) :
    m.requestTransition .ForwardSwing =
      ⟨m, .error .IllegalTransition⟩ ∧
    (m.requestTransition .ForwardSwing).machine.state = .ForwardSwing := by
  have hrej : m.requestTransition .ForwardSwing =
      ⟨m, .error .IllegalTransition⟩ := by
    unfold AnimationStateMachine.requestTransition
    rw [h]
    simp [AnimationState.adjacent]
  exact ⟨hrej, by rw [hrej]; exact h⟩

theorem requestTransition_forwardSwing_idempotent_reject_witness :
    (AnimationStateMachine.requestTransition
        ⟨.ForwardSwing, 0, 300, 200⟩ .ForwardSwing) =
      ⟨⟨.ForwardSwing, 0, 300, 200⟩, .error .IllegalTransition⟩ ∧
    (AnimationStateMachine.requestTransition
        ⟨.ForwardSwing, 0, 300, 200⟩ .ForwardSwing).machine.state =
      .ForwardSwing :=
  requestTransition_forwardSwing_idempotent_reject
    ⟨.ForwardSwing, 0, 300, 200⟩ rfl

/-- C3: requestTransition(t) succeeds, moving the machine to t and returning
the new state, exactly when t is adjacent to the current state in the cycle
Idle → Toss → Backswing → ForwardSwing → Recovery → Idle or t = Idle; in
every other case it fails with IllegalTransition and the machine is left
unchanged. -/
theorem requestTransition_spec
    (m : AnimationStateMachine) (t : AnimationState) :
    ((SpecAdjacent m.state t ∨ t = .Idle) →
      m.requestTransition t =
        ⟨{ m with state := t, timerMs := 0 }, .ok t⟩) ∧
    (¬(SpecAdjacent m.state t ∨ t = .Idle) →
      m.requestTransition t = ⟨m, .error .IllegalTransition⟩) := by
  obtain ⟨s, tm, f, r⟩ := m
  constructor
  · intro hok
    have hcond : (AnimationState.adjacent s t || (t == AnimationState.Idle))
        = true := by
      rcases hok with hadj | hidle
      · rcases s <;> rcases t <;> simp_all [SpecAdjacent, AnimationState.adjacent]
      · subst hidle
        simp
    simp only [AnimationStateMachine.requestTransition]
    simp_all
  · intro hbad
    have hcond : (AnimationState.adjacent s t || (t == AnimationState.Idle))
        = false := by
      rcases s <;> rcases t <;> simp_all [SpecAdjacent, AnimationState.adjacent]
    simp only [AnimationStateMachine.requestTransition]
    simp_all

theorem requestTransition_spec_witness :
    (AnimationStateMachine.requestTransition ⟨.Backswing, 7, 300, 200⟩
        .ForwardSwing =
      ⟨⟨.ForwardSwing, 0, 300, 200⟩, .ok .ForwardSwing⟩) ∧
    (AnimationStateMachine.requestTransition ⟨.Idle, 7, 300, 200⟩
        .ForwardSwing =
      ⟨⟨.Idle, 7, 300, 200⟩, .error .IllegalTransition⟩) := by
  constructor
  · exact (requestTransition_spec ⟨.Backswing, 7, 300, 200⟩ .ForwardSwing).1
      (Or.inl (by decide))
  · exact (requestTransition_spec ⟨.Idle, 7, 300, 200⟩ .ForwardSwing).2
      (by decide)

/-- Magnitude of a scalar multiple. -/
theorem Vec3.mag_smul (c : ℝ) (v : Vec3) :
    (Vec3.smul c v).mag = |c| * v.mag := by
  unfold Vec3.mag Vec3.smul
  have : (c * v.x) ^ 2 + (c * v.y) ^ 2 + (c * v.z) ^ 2 =
      c ^ 2 * (v.x ^ 2 + v.y ^ 2 + v.z ^ 2) := by ring
  rw [this, Real.sqrt_mul (sq_nonneg c), Real.sqrt_sq_eq_abs]

/-- The magnitude is nonnegative. -/
theorem Vec3.mag_nonneg (v : Vec3) : 0 ≤ v.mag :=
  Real.sqrt_nonneg _

/-- C1: for every impulse whose magnitude exceeds the configured positive
maximum velocity, applyImpulse returns a velocity of magnitude exactly the
configured maximum with the direction of the impulse preserved (a positive
scalar multiple of it); after any impulse the returned velocity — which is
also the ball's stored velocity — never exceeds the maximum in magnitude. -/
theorem applyImpulse_clamps (w : PhysicsWorld) (I : Vec3)
    (hmax : 0 < w.maxVelocity) :
    (I.mag > w.maxVelocity →
      (w.applyImpulse I).1.mag = w.maxVelocity ∧
      ∃ c : ℝ, 0 < c ∧ (w.applyImpulse I).1 = Vec3.smul c I) ∧
    (w.applyImpulse I).1.mag ≤ w.maxVelocity ∧
    (w.applyImpulse I).2.ballVel = (w.applyImpulse I).1 := by
  by_cases hle : I.mag ≤ w.maxVelocity
  · refine ⟨fun hgt => absurd hle (not_le.mpr hgt), ?_, rfl⟩
    simp only [PhysicsWorld.applyImpulse, if_pos hle]
    exact hle
  · have hgt : w.maxVelocity < I.mag := not_le.mp hle
    have hpos : 0 < I.mag := lt_trans hmax hgt
    have hc : 0 < w.maxVelocity / I.mag := div_pos hmax hpos
    have hres : (w.applyImpulse I).1 = Vec3.smul (w.maxVelocity / I.mag) I := by
      simp only [PhysicsWorld.applyImpulse, if_neg hle]
    have hmag : (w.applyImpulse I).1.mag = w.maxVelocity := by
      rw [hres, Vec3.mag_smul, abs_of_pos hc, div_mul_cancel₀ _ (ne_of_gt hpos)]
    exact ⟨fun _ => ⟨hmag, ⟨w.maxVelocity / I.mag, hc, hres⟩⟩,
      le_of_eq hmag, rfl⟩

theorem applyImpulse_clamps_witness :
    (PhysicsWorld.applyImpulse ⟨2, ⟨0, 0, 0⟩, ⟨0, 0, 0⟩⟩ ⟨0, 0, 3⟩).1.mag = 2 ∧
    (PhysicsWorld.applyImpulse ⟨2, ⟨0, 0, 0⟩, ⟨0, 0, 0⟩⟩ ⟨0, 0, 3⟩).1.mag ≤ 2 := by
  have hmag : (Vec3.mk 0 0 3).mag = 3 := by
    unfold Vec3.mag
    norm_num
    rw [show (9 : ℝ) = 3 ^ 2 by norm_num,
      Real.sqrt_sq (by norm_num : (0 : ℝ) ≤ 3)]
  have h := applyImpulse_clamps ⟨2, ⟨0, 0, 0⟩, ⟨0, 0, 0⟩⟩ ⟨0, 0, 3⟩
    (by norm_num)
  exact ⟨(h.1 (by rw [hmag]; norm_num)).1, h.2.1⟩

/-- C8: the debug position-override hook changes only the player's position;
the player's animation state machine (hence its AnimationState and every
state-machine invariant), side and facing are unchanged, so no state-machine
transition is bypassed by the call. -/
theorem debug_setPosition_only_relocates (p : Player) (x y z : ℚ) :
    (p.debug_setPosition x y z).pos = ⟨x, y, z⟩ ∧
    (p.debug_setPosition x y z).machine = p.machine ∧
    (p.debug_setPosition x y z).machine.state = p.machine.state ∧
    (p.debug_setPosition x y z).side = p.side ∧
    (p.debug_setPosition x y z).facing = p.facing :=
  ⟨rfl, rfl, rfl, rfl, rfl⟩

/-- C4: when commitSwing() is called after the bounded commit window has
elapsed, it yields ServeMissed, no impulse is handed to
PhysicsWorld.applyImpulse, and the rally restarts (animation back to Idle,
pending serve discarded) with the fault count incremented. -/
theorem commitSwing_after_window_misses (s : ServeController)
    (h : s.commitWindowMs < s.sinceArmedMs) :
    s.commitSwing.outcome = .ServeMissed ∧
    s.commitSwing.impulse = none ∧
    s.commitSwing.ctrl.faultCount = s.faultCount + 1 ∧
    s.commitSwing.ctrl.machine.state = .Idle ∧
    s.commitSwing.ctrl.servePending = false := by
  have hcond :
      ¬(s.machine.state = .Backswing ∧ s.sinceArmedMs ≤ s.commitWindowMs) := by
    rintro ⟨-, hle⟩
    exact absurd hle (not_le.mpr h)
  simp [ServeController.commitSwing, hcond, ServeController.restartRally]

theorem commitSwing_after_window_misses_witness :
    (ServeController.commitSwing
        ⟨⟨.Backswing, 0, 300, 200⟩, 0, 4, 1, 300, 400, 0, true⟩).outcome =
      .ServeMissed ∧
    (ServeController.commitSwing
        ⟨⟨.Backswing, 0, 300, 200⟩, 0, 4, 1, 300, 400, 0, true⟩).impulse =
      none ∧
    (ServeController.commitSwing
        ⟨⟨.Backswing, 0, 300, 200⟩, 0, 4, 1, 300, 400, 0, true⟩).ctrl.faultCount =
      0 + 1 ∧
    (ServeController.commitSwing
        ⟨⟨.Backswing, 0, 300, 200⟩, 0, 4, 1, 300, 400, 0, true⟩).ctrl.machine.state =
      .Idle ∧
    (ServeController.commitSwing
        ⟨⟨.Backswing, 0, 300, 200⟩, 0, 4, 1, 300, 400, 0, true⟩).ctrl.servePending =
      false :=
  commitSwing_after_window_misses
    ⟨⟨.Backswing, 0, 300, 200⟩, 0, 4, 1, 300, 400, 0, true⟩ (by norm_num)

/-- Events that keep the scoring memory of an unanswered bounce on side s
intact: uneventful ticks and touches by the same side. -/
theorem foldl_resolveEvent_neutral (s : Side) (mids : List RallyEvent)
    (hmids : ∀ e ∈ mids, e = .Tick ∨ e = .Touch s) :
    List.foldl RallyScore.resolveEvent ⟨some s, none⟩ mids =
      (⟨some s, none⟩ : RallyScore) := by
  induction mids with
  | nil => rfl
  | cons e rest ih =>
      have he := hmids e (by simp)
      have hstep : RallyScore.resolveEvent ⟨some s, none⟩ e =
          (⟨some s, none⟩ : RallyScore) := by
        rcases he with h | h <;> subst h <;> simp [RallyScore.resolveEvent]
      rw [List.foldl_cons, hstep]
      exact ih (fun e' he' => hmids e' (by simp [he']))

/-- C6: in any rally still undecided after a prefix of events, a bounce on
side s (not itself a second bounce) followed — with no intervening touch by
the opposite side — by another bounce on s ends the rally at that second
bounce with the point going to the opponent of s. -/
theorem double_bounce_ends_rally (pre mids : List RallyEvent) (s : Side)
    (hlive : (runRally pre).outcome = none)
    (hfresh : (runRally pre).lastBounce ≠ some s)
    (hmids : ∀ e ∈ mids, e = .Tick ∨ e = .Touch s) :
    (runRally (pre ++ .Bounce s :: (mids ++ [.Bounce s]))).outcome =
      some (.PointWon s.opponent) := by
  have hsplit : runRally (pre ++ .Bounce s :: (mids ++ [.Bounce s])) =
      List.foldl RallyScore.resolveEvent (runRally pre)
        (.Bounce s :: (mids ++ [.Bounce s])) := by
    unfold runRally
    rw [List.foldl_append]
  have hb1 : RallyScore.resolveEvent (runRally pre) (.Bounce s) =
      (⟨some s, none⟩ : RallyScore) := by
    rcases hrr : runRally pre with ⟨lb, oc⟩
    rw [hrr] at hlive hfresh
    obtain rfl : oc = none := hlive
    have hlb : ¬lb = some s := hfresh
    simp [RallyScore.resolveEvent, hlb]
  rw [hsplit, List.foldl_cons, hb1, List.foldl_append,
    foldl_resolveEvent_neutral s mids hmids]
  simp [RallyScore.resolveEvent]

theorem double_bounce_ends_rally_witness :
    (runRally ([] ++ .Bounce .near :: ([.Tick, .Touch .near] ++
        [.Bounce .near]))).outcome = some (.PointWon .far) := by
  have h := double_bounce_ends_rally [] [.Tick, .Touch .near] .near
    rfl (by simp [runRally]) (by decide)
  simpa [Side.opponent] using h

/-- C5: pause is lossless — pause and resume mutate neither the physics
world nor either animation machine, a paused orchestrator does not advance
however many ticks elapse, and resuming after N paused ticks leaves the
whole simulation exactly where it was, so every subsequent run of M ticks
is identical to the unpaused run (the trajectory is the unpaused one
offset by the N paused ticks). -/
theorem pause_lossless (o : RallyOrchestrator) (h : o.paused = false)
    (N M : ℕ) :
    RallyOrchestrator.tick^[M] (RallyOrchestrator.tick^[N] o.pause).resume =
      RallyOrchestrator.tick^[M] o ∧
    o.pause.world = o.world ∧
    o.pause.nearMachine = o.nearMachine ∧
    o.pause.farMachine = o.farMachine ∧
    (RallyOrchestrator.tick^[N] o.pause).world = o.world ∧
    (RallyOrchestrator.tick^[N] o.pause).resume.world = o.world := by
  have hfix : o.pause.tick = o.pause := by
    simp [RallyOrchestrator.tick, RallyOrchestrator.pause]
  have hiter : RallyOrchestrator.tick^[N] o.pause = o.pause :=
    Function.iterate_fixed hfix N
  have hres : o.pause.resume = o := by
    unfold RallyOrchestrator.pause RallyOrchestrator.resume
    cases o
    simp_all
  rw [hiter, hres]
  exact ⟨rfl, rfl, rfl, rfl, rfl, rfl⟩

theorem pause_lossless_witness :
    RallyOrchestrator.tick^[1]
        (RallyOrchestrator.tick^[3] sampleOrchestrator.pause).resume =
      RallyOrchestrator.tick^[1] sampleOrchestrator ∧
    sampleOrchestrator.pause.world = sampleOrchestrator.world ∧
    sampleOrchestrator.pause.nearMachine = sampleOrchestrator.nearMachine ∧
    sampleOrchestrator.pause.farMachine = sampleOrchestrator.farMachine ∧
    (RallyOrchestrator.tick^[3] sampleOrchestrator.pause).world =
      sampleOrchestrator.world ∧
    (RallyOrchestrator.tick^[3] sampleOrchestrator.pause).resume.world =
      sampleOrchestrator.world :=
  pause_lossless sampleOrchestrator rfl 3 1

/-- C7: whenever the predicted crossing point of the incoming ball lies
outside the AI's reach envelope, planStroke reports Unreachable, never
issues a swing commit, and the orchestrator's resolution of that decision
concedes the point to the AI's opponent. -/
theorem ai_out_of_reach_unreachable (cfg : AIConfig) (w : PhysicsWorldQ)
    (fuel : ℕ) (p : Vec3Q) (t : ℕ) (aiSide : Side)
    (hpred : predictCrossing w cfg fuel = some (p, t))
    (hout : cfg.inReach p = false) :
    AIOpponent.planStroke cfg w fuel = .Unreachable ∧
    (∀ plan, AIOpponent.planStroke cfg w fuel ≠ .Commit plan) ∧
    resolveAIDecision aiSide (AIOpponent.planStroke cfg w fuel) =
      some (.PointWon aiSide.opponent) := by
  have h1 : AIOpponent.planStroke cfg w fuel = .Unreachable := by
    simp [AIOpponent.planStroke, hpred, hout]
  refine ⟨h1, ?_, ?_⟩
  · intro plan hcontr
    rw [h1] at hcontr
    exact AIDecision.noConfusion hcontr
  · rw [h1]
    rfl

theorem ai_out_of_reach_unreachable_witness :
    AIOpponent.planStroke sampleAIConfig sampleIncomingWorld 1 =
      .Unreachable ∧
    AIOpponent.planStroke sampleAIConfig sampleIncomingWorld 1 ≠
      .Commit ⟨⟨0, 0, 0⟩, 0, 0, 0, 0⟩ ∧
    resolveAIDecision .far
        (AIOpponent.planStroke sampleAIConfig sampleIncomingWorld 1) =
      some (.PointWon .near) := by
  have h := ai_out_of_reach_unreachable sampleAIConfig sampleIncomingWorld 1
    ⟨5, 2, -1⟩ 1 .far
    (by norm_num [predictCrossing, PhysicsWorldQ.step, sampleIncomingWorld,
      sampleAIConfig])
    (by norm_num [AIConfig.inReach, sampleAIConfig])
  exact ⟨h.1, h.2.1 _, h.2.2⟩

/-- leadMatch decides whether the text starts with the pattern. -/
theorem leadMatch_iff (pat : List Char) :
    ∀ l, leadMatch pat l = true ↔ ∃ rest, l = pat ++ rest := by
  induction pat with
  | nil =>
      intro l
      constructor
      · intro _
        exact ⟨l, rfl⟩
      · intro _
        rfl
  | cons a as ih =>
      intro l
      cases l with
      | nil => simp [leadMatch]
      | cons b bs =>
          simp only [leadMatch, Bool.and_eq_true, beq_iff_eq, ih bs,
            List.cons_append, List.cons.injEq]
          constructor
          · rintro ⟨hab, rest, hrest⟩
            exact ⟨rest, hab.symm, hrest⟩
          · rintro ⟨rest, hba, hrest⟩
            exact ⟨hba.symm, rest, hrest⟩

/-- subMatch decides substring containment. -/
theorem subMatch_iff (pat : List Char) :
    ∀ l, subMatch pat l = true ↔ ∃ pre post, l = pre ++ pat ++ post := by
  intro l
  induction l with
  | nil =>
      simp only [subMatch]
      rw [leadMatch_iff]
      constructor
      · rintro ⟨rest, hrest⟩
        obtain ⟨hpat, -⟩ := List.append_eq_nil.mp hrest.symm
        exact ⟨[], [], by simp [hpat]⟩
      · rintro ⟨pre, post, h⟩
        obtain ⟨h2, -⟩ := List.append_eq_nil.mp h.symm
        obtain ⟨-, hpat⟩ := List.append_eq_nil.mp h2
        exact ⟨[], by simp [hpat]⟩
  | cons b bs ih =>
      simp only [subMatch, Bool.or_eq_true]
      rw [leadMatch_iff, ih]
      constructor
      · rintro (⟨rest, hrest⟩ | ⟨pre, post, hsplit⟩)
        · exact ⟨[], rest, by simp [hrest]⟩
        · exact ⟨b :: pre, post, by simp [hsplit]⟩
      · rintro ⟨pre, post, hsplit⟩
        cases pre with
        | nil =>
            left
            exact ⟨post, by simpa using hsplit⟩
        | cons c cs =>
            right
            rw [List.cons_append, List.cons_append] at hsplit
            injection hsplit with h1 h2
            exact ⟨cs, post, h2⟩

/-- strContains decides the ContainsSub proposition. -/
theorem strContains_iff (hay pat : String) :
    strContains hay pat = true ↔ ContainsSub hay pat := by
  unfold strContains ContainsSub
  exact subMatch_iff pat.toList hay.toList

/-- C9: the fullscreen-click verification script raises an AssertionError
(printing the FAILURE line and never reaching the screenshot) exactly when
no captured console message contains the substring "Tossing ball"; when
some captured message contains it, the script prints the SUCCESS line,
takes the screenshot and terminates without raising. -/
theorem run_verification_spec (logs : List String) :
    ((∃ log ∈ logs, ContainsSub log "Tossing ball") →
      run_verification logs = ⟨true, false, false, true⟩) ∧
    ((¬∃ log ∈ logs, ContainsSub log "Tossing ball") →
      run_verification logs = ⟨false, true, true, false⟩) := by
  have hany : (logs.any fun log => strContains log "Tossing ball") = true ↔
      ∃ log ∈ logs, ContainsSub log "Tossing ball" := by
    rw [List.any_eq_true]
    constructor
    · rintro ⟨log, hmem, hc⟩
      exact ⟨log, hmem, (strContains_iff log "Tossing ball").mp hc⟩
    · rintro ⟨log, hmem, hc⟩
      exact ⟨log, hmem, (strContains_iff log "Tossing ball").mpr hc⟩
  constructor
  · intro hex
    simp [run_verification, hany.mpr hex]
  · intro hnex
    have hfalse :
        (logs.any fun log => strContains log "Tossing ball") = false := by
      cases hh : logs.any fun log => strContains log "Tossing ball" with
      | false => rfl
      | true => exact absurd (hany.mp hh) hnex
    simp [run_verification, hfalse]

theorem run_verification_spec_witness :
    run_verification ["boot", "Tossing ball toward apex"] =
      ⟨true, false, false, true⟩ ∧
    run_verification ["boot"] = ⟨false, true, true, false⟩ := by
  constructor
  · exact (run_verification_spec _).1
      ⟨"Tossing ball toward apex", by simp,
        (strContains_iff _ _).mp (by decide)⟩
  · refine (run_verification_spec _).2 ?_
    rintro ⟨log, hmem, hc⟩
    simp only [List.mem_singleton] at hmem
    subst hmem
    exact absurd ((strContains_iff "boot" "Tossing ball").mpr hc) (by decide)

/-- C10: when evaluating typeof window.game yields 'undefined', the
robust-serve verification script closes the browser and returns early: its
action trace is exactly the browser close, with no mousedown/mouseup
dispatch and no debug_setPosition call on any player. -/
theorem runRobustServe_early_return (typeofGame : String)
    (setPosRaises : ℚ → Bool) (h : typeofGame = "undefined") :
    runRobustServe typeofGame setPosRaises = [.closeBrowser] ∧
    (∀ x y z, ScriptAction.evalDebugSetPosition x y z ∉
      runRobustServe typeofGame setPosRaises) ∧
    (∀ ev, ScriptAction.dispatchEvent ev ∉
      runRobustServe typeofGame setPosRaises) := by
  subst h
  have h1 : runRobustServe "undefined" setPosRaises = [.closeBrowser] := by
    simp [runRobustServe]
  refine ⟨h1, ?_, ?_⟩
  · intro x y z
    rw [h1]
    simp
  · intro ev
    rw [h1]
    simp

theorem runRobustServe_early_return_witness :
    runRobustServe "undefined" noRaise = [.closeBrowser] ∧
    ScriptAction.evalDebugSetPosition 0 (77/100) (157/100) ∉
      runRobustServe "undefined" noRaise ∧
    ScriptAction.dispatchEvent "mousedown" ∉
      runRobustServe "undefined" noRaise := by
  have h := runRobustServe_early_return "undefined" noRaise rfl
  exact ⟨h.1, h.2.1 0 (77/100) (157/100), h.2.2 "mousedown"⟩
